import Mathlib

/-!
Verification development for the LIMIT-Graph RDF integration subsystem
(`triple_generator.py`, `named_graphs.py`, `sparql_interface.py`).

The Python sources are shallowly embedded: pure helper functions become Lean
functions on `String` / `List Char`; the mutable rdflib graphs become explicit
state records holding lists of triples with set-insertion semantics (rdflib
`Graph.add` is idempotent); `uuid.uuid4()` is modelled by a fresh-id counter
kept in the state (the design document treats uuid collisions as negligible,
so freshness appears as an explicit hypothesis where it matters);
`datetime.now()` is modelled by a `Nat`-valued clock field.  Python floats
that only ever hold small decimal scores are embedded as `ℚ`.
-/

namespace LimitGraph

/-! ## Python string primitives -/

/-- Python `str.lower()` (ASCII case folding; the stop-word lexicons and
keywords compared against are ASCII or caseless Arabic). -/
def pyLower (s : String) : String := String.mk (s.data.map Char.toLower)

/-- Accumulating worker for `pyWords`. -/
def pyWordsAux : List Char → List Char → List String
  | [], [] => []
  | [], acc => [String.mk acc.reverse]
  | c :: cs, acc =>
    if c.isWhitespace then
      (if acc = [] then pyWordsAux cs []
       else String.mk acc.reverse :: pyWordsAux cs [])
    else pyWordsAux cs (c :: acc)

/-- Python `str.split()` with no separator: split on whitespace runs,
discarding empty tokens. -/
def pyWords (s : String) : List String := pyWordsAux s.data []

/-- Python `str.strip()`: remove leading and trailing whitespace. -/
def pyStrip (s : String) : String :=
  String.mk (((s.data.dropWhile Char.isWhitespace).reverse.dropWhile
    Char.isWhitespace).reverse)

/-- Does `hay` start with `pat`? (helper for substring containment). -/
def startsWithList : List Char → List Char → Bool
  | _, [] => true
  | [], _ :: _ => false
  | h :: hs, p :: ps => h == p && startsWithList hs ps

/-- Python `pat in hay` on strings: `pat` occurs contiguously in `hay`. -/
def containsSub : List Char → List Char → Bool
  | [], pat => pat.isEmpty
  | hay@(_ :: hs), pat => startsWithList hay pat || containsSub hs pat

/-- Python `str.isalnum()` for one character.  ASCII letters and digits are
exact; non-ASCII letters (Latin-1 accents, Arabic script, …) are approximated
by code point ≥ 0xC0, which is correct for every character this repository
feeds through it. -/
def pyIsAlnum (c : Char) : Bool := c.isAlphanum || 0xC0 ≤ c.toNat

/-- Python regex `\w` for one character (unicode word character or
underscore), with the same non-ASCII approximation as `pyIsAlnum`. -/
def pyWordChar (c : Char) : Bool := pyIsAlnum c || c == '_'

/-! ## Language classifier — `LimitGraphTripleGenerator.detect_language`
(`triple_generator.py` lines 66-71 and 90-107) -/

/-- The `language_patterns` table from `LimitGraphTripleGenerator.__init__`:
four fixed stop-word lexicons, in dict insertion order. -/
def languagePatterns : List (String × List String) :=
  [("es", ["el", "la", "los", "las", "de", "del", "en", "con", "por", "para",
           "que", "es", "son"]),
   ("ar", ["في", "من", "إلى", "على", "مع", "هو", "هي", "التي", "الذي"]),
   ("id", ["yang", "dan", "di", "ke", "dari", "untuk", "dengan", "adalah",
           "ini", "itu"]),
   ("en", ["the", "and", "or", "in", "on", "at", "to", "from", "with", "is",
           "are"])]

/-- The `language_scores` dict built by `detect_language`: for each lexicon,
the number of tokens that are stop words of that language; an entry
`score / len(words)` is recorded only when the score is positive (so the
division is guarded by `score > 0`, which forces `words ≠ []`). -/
def languageScores (ws : List String) : List (String × ℚ) :=
  languagePatterns.filterMap fun lp =>
    let score := ws.countP fun w => decide (w ∈ lp.2)
    if 0 < score then some (lp.1, (score : ℚ) / (ws.length : ℚ)) else none

/-- Python `max(items, key=lambda x: x[1])` keeps the current best unless a
strictly greater value appears, so ties go to the earliest entry. -/
def maxBySndAux (best : String × ℚ) : List (String × ℚ) → String × ℚ
  | [] => best
  | y :: ys => maxBySndAux (if best.2 < y.2 then y else best) ys

/-- `max(language_scores.items(), key=lambda x: x[1])`, `none` on an empty
dict (in Python that branch is guarded by `if language_scores:`). -/
def maxBySnd : List (String × ℚ) → Option (String × ℚ)
  | [] => none
  | x :: xs => some (maxBySndAux x xs)

/-- `LimitGraphTripleGenerator.detect_language`: empty text defaults to
`"en"`; otherwise tokenize the lowercased text, score each lexicon, and
return the best-scoring language code, defaulting to `"en"` when no language
scores above zero. -/
def detectLanguage (t : String) : String :=
  if t = "" then "en"
  else
    match maxBySnd (languageScores (pyWords (pyLower t))) with
    | some p => p.1
    | none => "en"

/-- The four language codes that can come out of the classifier. -/
def classifierCodes : List String := ["es", "ar", "id", "en"]

/-! ## Identifier cleaning and minting —
`_clean_uri_component` (identical in `triple_generator.py` lines 211-217 and
`named_graphs.py` lines 318-322) -/

/-- `_clean_uri_component`: `component.replace(" ", "_").replace("-", "_")`
followed by keeping only the characters with `c.isalnum() or c == "_"`. -/
def cleanUriComponent (s : String) : String :=
  String.mk (((s.data.map fun c => if c = ' ' then '_' else c).map
      fun c => if c = '-' then '_' else c).filter
    fun c => pyWordChar c)

/-- Modelled from the spec (§4.1 claim C7 wording): the cleaning rule the
claim describes, which replaces *every* whitespace character (not just
U+0020) and every hyphen with the connector before filtering.  Used only to
exhibit where the source diverges from the claim. -/
def cleanUriComponentSpec (s : String) : String :=
  String.mk ((s.data.map fun c =>
    if c.isWhitespace ∨ c = '-' then '_' else c).filter fun c => pyWordChar c)

/-- rdflib `Namespace.__getitem__`: an identifier minted in a namespace is
the namespace string followed by the cleaned local part. -/
def nsTerm (ns localPart : String) : String := ns ++ localPart

/-! ## RDF terms and graphs -/

/-- The namespaces bound in `__init__` (base URI `http://limitgraph.org/`)
and the external vocabulary URIs the embedded code uses. -/
def lgdataNs : String := "http://limitgraph.org/data/"

def lgontNs : String := "http://limitgraph.org/ontology/"

def lgprovNs : String := "http://limitgraph.org/provenance/"

def lgrlhfNs : String := "http://limitgraph.org/rlhf/"

def lgangNs : String := "http://limitgraph.org/annotators/"

def lglangNs : String := "http://limitgraph.org/languages/"

def rdfsNs : String := "http://www.w3.org/2000/01/rdf-schema#"

def rdfTypeUri : String := "http://www.w3.org/1999/02/22-rdf-syntax-ns#type"

def rdfsLabelUri : String := rdfsNs ++ "label"

def dctermsCreatedUri : String := "http://purl.org/dc/terms/created"

/-- An RDF node: a URI reference, a string literal (plain or language
tagged; XSD string/dateTime literals are plain here), or a numeric literal
(XSD float/integer values, embedded as `ℚ`). -/
inductive Term where
  | uri : String → Term
  | litS : String → Option String → Term
  | litQ : ℚ → Term
deriving DecidableEq, Repr

/-- One RDF triple. -/
structure Triple where
  subj : Term
  pred : Term
  obj : Term
deriving DecidableEq, Repr

/-- rdflib `Graph.add`: a graph is a set of triples, so adding an already
present triple is a no-op; a new triple is appended. -/
def addT (g : List Triple) (t : Triple) : List Triple :=
  if t ∈ g then g else g ++ [t]

/-- `uuid.uuid4()` modelled as a fresh-id counter rendered to a string. -/
def uuidStr (n : Nat) : String := toString n

/-- `datetime.now().isoformat()` with the clock abstracted to a `Nat`. -/
def isoTime (n : Nat) : String := toString n

/-! ## Fact extractor — `_extract_simple_triples`
(`triple_generator.py` lines 285-355).  The three `re.finditer` patterns are
embedded as deterministic scanners; none of them needs backtracking because
each greedy `\w+`/`\s+` run is followed by a character class disjoint from
it, and the lazy `(.+?)(?:\.|$)` group takes the shortest non-empty stretch
of non-newline text ending at a `'.'` or at the end of the string
(Python `$` also matches just before one trailing newline). -/

/-- Case-insensitive character comparison (regex `re.IGNORECASE`). -/
def ciChar (a b : Char) : Bool := a.toLower == b.toLower

/-- Match a literal pattern case-insensitively, returning the rest. -/
def matchLitCI : List Char → List Char → Option (List Char)
  | [], cs => some cs
  | _ :: _, [] => none
  | p :: ps, c :: cs => if ciChar c p then matchLitCI ps cs else none

/-- Greedy `+` over a character class: at least one character. -/
def takeWhile1 (p : Char → Bool) (cs : List Char) :
    Option (List Char × List Char) :=
  let tk := cs.takeWhile p
  if tk.isEmpty then none else some (tk, cs.dropWhile p)

/-- The lazy group `(.+?)(?:\.|$)`: capture the shortest non-empty run of
non-newline characters whose successor position is a `'.'` (consumed), the
end of input, or a single trailing newline (not consumed). -/
def lazyDotCapture : List Char → List Char → Option (List Char × List Char)
  | acc, [] => if acc.isEmpty then none else some (acc.reverse, [])
  | acc, c :: rest =>
    if !acc.isEmpty && c == '.' then some (acc.reverse, rest)
    else if c == '\n' then
      if !acc.isEmpty && rest.isEmpty then some (acc.reverse, c :: rest)
      else none
    else lazyDotCapture (c :: acc) rest

/-- Spanish pattern `A\s+(\w+)\s+le\s+gusta[n]?\s+(.+?)(?:\.|$)`
(IGNORECASE) at one position. -/
def matchEsGusta : List Char → Option ((String × String) × List Char)
  | [] => none
  | c :: cs1 =>
    if ciChar c 'a' then do
      let (_, cs2) ← takeWhile1 Char.isWhitespace cs1
      let (subj, cs3) ← takeWhile1 pyWordChar cs2
      let (_, cs4) ← takeWhile1 Char.isWhitespace cs3
      let cs5 ← matchLitCI "le".data cs4
      let (_, cs6) ← takeWhile1 Char.isWhitespace cs5
      let cs7 ← matchLitCI "gusta".data cs6
      let cs8 := match cs7 with
        | d :: ds => if ciChar d 'n' then ds else cs7
        | [] => cs7
      let (_, cs9) ← takeWhile1 Char.isWhitespace cs8
      let (obj, rest) ← lazyDotCapture [] cs9
      some ((String.mk subj, String.mk obj), rest)
    else none

/-- Spanish pattern `(\w+)\s+es\s+alérgic[ao]\s+a\s+(.+?)(?:\.|$)`
(IGNORECASE) at one position. -/
def matchEsAlergica (cs : List Char) :
    Option ((String × String) × List Char) := do
  let (subj, cs2) ← takeWhile1 pyWordChar cs
  let (_, cs3) ← takeWhile1 Char.isWhitespace cs2
  let cs4 ← matchLitCI "es".data cs3
  let (_, cs5) ← takeWhile1 Char.isWhitespace cs4
  let cs6 ← matchLitCI "alérgic".data cs5
  match cs6 with
  | [] => none
  | d :: ds =>
    if ciChar d 'a' || ciChar d 'o' then do
      let (_, cs7) ← takeWhile1 Char.isWhitespace ds
      let cs8 ← matchLitCI "a".data cs7
      let (_, cs9) ← takeWhile1 Char.isWhitespace cs8
      let (obj, rest) ← lazyDotCapture [] cs9
      some ((String.mk subj, String.mk obj), rest)
    else none

/-- English pattern `(\w+)\s+likes?\s+(.+?)(?:\.|$)` (IGNORECASE) at one
position. -/
def matchEnLikes (cs : List Char) :
    Option ((String × String) × List Char) := do
  let (subj, cs2) ← takeWhile1 pyWordChar cs
  let (_, cs3) ← takeWhile1 Char.isWhitespace cs2
  let cs4 ← matchLitCI "like".data cs3
  let cs5 := match cs4 with
    | d :: ds => if ciChar d 's' then ds else cs4
    | [] => cs4
  let (_, cs6) ← takeWhile1 Char.isWhitespace cs5
  let (obj, rest) ← lazyDotCapture [] cs6
  some ((String.mk subj, String.mk obj), rest)

/-- `re.finditer`: scan left to right; on a match continue after its end
(every embedded pattern consumes at least one character), otherwise advance
one position.  Fuel is the remaining length, which bounds both cases. -/
def finditerAux (m : List Char → Option ((String × String) × List Char)) :
    Nat → List Char → List (String × String)
  | 0, _ => []
  | _, [] => []
  | fuel + 1, c :: rest =>
    match m (c :: rest) with
    | some (g, after) => g :: finditerAux m fuel after
    | none => finditerAux m fuel rest

/-- All matches of a pattern in a string, Python `re.finditer` order. -/
def finditer (m : List Char → Option ((String × String) × List Char))
    (cs : List Char) : List (String × String) :=
  finditerAux m (cs.length + 1) cs

/-- One candidate fact dict produced by `_extract_simple_triples`. -/
structure CandidateTriple where
  subject : String
  predicate : String
  object : String
  confidence : ℚ
  source_doc : String
deriving DecidableEq, Repr

/-- The language-specific pattern facts of `_extract_simple_triples`: the
two Spanish patterns, the one English pattern, or nothing. -/
def patternTriplesFor (text docId language : String) :
    List CandidateTriple :=
  let cs := text.data
  if language = "es" then
    (finditer matchEsGusta cs).map (fun g =>
      ⟨pyStrip g.1, "likes", pyStrip g.2, 9/10, docId⟩)
    ++ (finditer matchEsAlergica cs).map (fun g =>
      ⟨pyStrip g.1, "allergic_to", pyStrip g.2, 9/10, docId⟩)
  else if language = "en" then
    (finditer matchEnLikes cs).map (fun g =>
      ⟨pyStrip g.1, "likes", pyStrip g.2, 9/10, docId⟩)
  else []

/-- `_extract_simple_triples`: language-specific pattern facts followed by
the unconditional `contains_text` fact with confidence 1.0. -/
def extractSimpleTriples (text docId language : String) :
    List CandidateTriple :=
  patternTriplesFor text docId language
  ++ [⟨"document_" ++ docId, "contains_text", text, 1, docId⟩]

/-! ## Fact & provenance writer — `LimitGraphTripleGenerator`
(`triple_generator.py` lines 109-283) -/

/-- A value in an RLHF feedback dict (`int`/`float` vs. everything else,
which `_add_rlhf_triples` stringifies). -/
inductive PyVal where
  | s : String → PyVal
  | q : ℚ → PyVal
deriving DecidableEq, Repr

/-- The `LimitGraphTriple` dataclass. -/
structure LimitGraphTriple where
  subject : String
  predicate : String
  object : String
  confidence : ℚ
  source_language : String
  annotator_id : String
  timestamp : Nat
  rlhf_feedback : Option (List (String × PyVal)) := none
  provenance : Option (List (String × String)) := none
deriving DecidableEq, Repr

/-- Generator state: the single rdflib `Graph` plus the uuid counter and the
abstracted wall clock. -/
structure GenState where
  graph : List Triple
  nextUuid : Nat
  now : Nat

/-- A freshly initialized generator: empty graph. -/
def initGenState : GenState := ⟨[], 0, 0⟩

/-- `convert_limitgraph_edge_to_triple`: detect the language of the combined
text and attach the fixed provenance dict. -/
def convertLimitgraphEdgeToTriple (now : Nat)
    (subject predicate object_value : String) (confidence : ℚ)
    (annotator_id : String) (rlhf_feedback : Option (List (String × PyVal)))
    (source_text : String) : LimitGraphTriple :=
  let combined :=
    subject ++ " " ++ predicate ++ " " ++ object_value ++ " " ++ source_text
  { subject := subject, predicate := predicate, object := object_value,
    confidence := confidence, source_language := detectLanguage combined,
    annotator_id := annotator_id, timestamp := now,
    rlhf_feedback := rlhf_feedback,
    provenance := some [("extraction_method", "limitgraph_conversion"),
                        ("source_system", "LIMIT-Graph"),
                        ("conversion_timestamp", isoTime now),
                        ("source_text", source_text)] }

/-- `_is_entity`: an object value is an entity reference when it is shorter
than 50 characters and contains none of `.`, `!`, `?`, `,`. -/
def isEntity (v : String) : Bool :=
  decide (v.data.length < 50) &&
    !(['.', '!', '?', ','].any fun p => v.data.contains p)

/-- The object node of a triple: entity URI or language-tagged literal. -/
def objectTermOf (tr : LimitGraphTriple) : Term :=
  if isEntity tr.object then
    Term.uri (lgdataNs ++ cleanUriComponent tr.object)
  else Term.litS tr.object (some tr.source_language)

/-- The main `(subject, predicate, object)` fact added by
`add_triple_to_graph`. -/
def mainTripleOf (tr : LimitGraphTriple) : Triple :=
  ⟨Term.uri (lgdataNs ++ cleanUriComponent tr.subject),
   Term.uri (lgontNs ++ cleanUriComponent tr.predicate),
   objectTermOf tr⟩

/-- The provenance triples `_add_provenance_triples` emits for a statement,
in source order. -/
def provTriplesOf (stmtUri : Term) (tr : LimitGraphTriple)
    (subjT predT objT : Term) : List Triple :=
  [⟨stmtUri, .uri rdfTypeUri, .uri (lgontNs ++ "Statement")⟩,
   ⟨stmtUri, .uri (lgontNs ++ "hasSubject"), subjT⟩,
   ⟨stmtUri, .uri (lgontNs ++ "hasPredicate"), predT⟩,
   ⟨stmtUri, .uri (lgontNs ++ "hasObject"), objT⟩,
   ⟨stmtUri, .uri (lgontNs ++ "confidence"), .litQ tr.confidence⟩,
   ⟨stmtUri, .uri (lgontNs ++ "sourceLanguage"), .litS tr.source_language none⟩,
   ⟨stmtUri, .uri (lgontNs ++ "annotatorId"), .litS tr.annotator_id none⟩,
   ⟨stmtUri, .uri (lgontNs ++ "timestamp"), .litS (isoTime tr.timestamp) none⟩]
  ++ (match tr.provenance with
      | some kvs => kvs.map fun kv =>
          ⟨stmtUri, .uri (lgprovNs ++ cleanUriComponent kv.1), .litS kv.2 none⟩
      | none => [])

/-- The triples `_add_rlhf_triples` emits (numeric dict values become typed
numeric literals; everything else is stringified). -/
def rlhfTriplesOf (stmtUri fbUri : Term) (fb : List (String × PyVal)) :
    List Triple :=
  [⟨fbUri, .uri rdfTypeUri, .uri (lgontNs ++ "RLHFFeedback")⟩,
   ⟨stmtUri, .uri (lgontNs ++ "hasRLHFFeedback"), fbUri⟩]
  ++ fb.map fun kv =>
      ⟨fbUri, .uri (lgrlhfNs ++ cleanUriComponent kv.1),
       match kv.2 with | .q x => .litQ x | .s v => .litS v none⟩

/-- The provenance triples written for a statement: `_add_provenance_triples`
applied to the statement uri minted from `stmtId` and to the subject,
predicate and object nodes of the main fact. -/
def statementTriples (tr : LimitGraphTriple) (stmtId : String) : List Triple :=
  provTriplesOf (Term.uri (lgprovNs ++ ("statement_" ++ stmtId))) tr
    (Term.uri (lgdataNs ++ cleanUriComponent tr.subject))
    (Term.uri (lgontNs ++ cleanUriComponent tr.predicate))
    (objectTermOf tr)

/-- `add_triple_to_graph`: add the main fact, mint a statement id, add the
provenance triples, and the RLHF triples when feedback is attached.  Returns
the statement id and the updated state. -/
def addTripleToGraph (tr : LimitGraphTriple) (st : GenState) :
    String × GenState :=
  let g1 := addT st.graph (mainTripleOf tr)
  let statementId := uuidStr st.nextUuid
  let g2 := (statementTriples tr statementId).foldl addT g1
  match tr.rlhf_feedback with
  | none => (statementId, ⟨g2, st.nextUuid + 1, st.now⟩)
  | some fb =>
    let stmtUri := Term.uri (lgprovNs ++ ("statement_" ++ statementId))
    let fbUri := Term.uri (lgrlhfNs ++ ("feedback_" ++ uuidStr (st.nextUuid + 1)))
    let g3 := (rlhfTriplesOf stmtUri fbUri fb).foldl addT g2
    (statementId, ⟨g3, st.nextUuid + 2, st.now⟩)

/-- A corpus record: `_id` may be absent (Python then substitutes a uuid
default), `text` defaults to the empty string. -/
structure Doc where
  id : Option String := none
  text : String := ""

/-- The five document-entity triples `convert_limitgraph_corpus` adds per
processed document. -/
def documentTriples (docUri : Term) (docId text lang : String) :
    List Triple :=
  [⟨docUri, .uri rdfTypeUri, .uri (lgontNs ++ "Document")⟩,
   ⟨docUri, .uri rdfsLabelUri, .litS ("Document " ++ docId) (some lang)⟩,
   ⟨docUri, .uri (lgontNs ++ "content"), .litS text (some lang)⟩,
   ⟨docUri, .uri (lgontNs ++ "documentId"), .litS docId none⟩,
   ⟨docUri, .uri (lgontNs ++ "language"), .litS lang none⟩]

/-- The body of the inner loop of `convert_limitgraph_corpus`: convert one
extracted candidate with `convert_limitgraph_edge_to_triple` (no feedback
attached on this path), add it via `add_triple_to_graph`, and bump
`triples_added`. -/
def convertStep (annotatorId sourceText : String) (p : GenState × Nat)
    (cand : CandidateTriple) : GenState × Nat :=
  let tr := convertLimitgraphEdgeToTriple p.1.now cand.subject cand.predicate
    cand.object cand.confidence annotatorId none sourceText
  ((addTripleToGraph tr p.1).2, p.2 + 1)

/-- The loop body of `convert_limitgraph_corpus` for one document.  The
accumulator is (state, languages_detected, triples_added); the
`languages_detected` set is modelled as an append-if-absent list.  The uuid
for the `doc.get('_id', f"doc_{uuid.uuid4()}")` default argument is drawn
unconditionally — Python evaluates it before the empty-text `continue`. -/
def processDoc (annotatorId : String) (acc : GenState × List String × Nat)
    (doc : Doc) : GenState × List String × Nat :=
  let st := acc.1
  let docId := match doc.id with
    | some i => i
    | none => "doc_" ++ uuidStr st.nextUuid
  let st1 : GenState := ⟨st.graph, st.nextUuid + 1, st.now⟩
  if doc.text = "" then (st1, acc.2.1, acc.2.2)
  else
    let lang := detectLanguage doc.text
    let langs := if lang ∈ acc.2.1 then acc.2.1 else acc.2.1 ++ [lang]
    let docUri := Term.uri (lgdataNs ++ ("document_" ++ cleanUriComponent docId))
    let g := (documentTriples docUri docId doc.text lang).foldl addT st1.graph
    let st2 : GenState := ⟨g, st1.nextUuid, st1.now⟩
    let r := (extractSimpleTriples doc.text docId lang).foldl
      (convertStep annotatorId doc.text) (st2, acc.2.2)
    (r.1, langs, r.2)

/-- The summary `convert_limitgraph_corpus` returns (the
`conversion_metadata` report dict, which only restates these fields, is not
modelled). -/
structure RDFConversionResult where
  graph : List Triple
  triples_count : Nat
  languages_detected : List String
  annotators : List String

/-- `convert_limitgraph_corpus`. -/
def convertLimitgraphCorpus (corpus : List Doc) (annotatorId : String)
    (st0 : GenState) : RDFConversionResult :=
  let r := corpus.foldl (processDoc annotatorId) (st0, [], 0)
  ⟨r.1.graph, r.2.2, r.2.1, [annotatorId]⟩

/-- The main `contains_text` fact that processing a document with the given
id and raw text writes to the graph (the language tag on a literal object is
the language detected on the combined text built by
`convert_limitgraph_edge_to_triple`). -/
def containsTextFact (docId text : String) : Triple :=
  let subjStr := "document_" ++ docId
  let combined := subjStr ++ " " ++ "contains_text" ++ " " ++ text ++ " " ++ text
  ⟨Term.uri (lgdataNs ++ cleanUriComponent subjStr),
   Term.uri (lgontNs ++ cleanUriComponent "contains_text"),
   if isEntity text then Term.uri (lgdataNs ++ cleanUriComponent text)
   else Term.litS text (some (detectLanguage combined))⟩

/-- The `lgont:sourceLanguage` provenance triple recorded for a statement
node: it carries the language classified for the statement's combined
text. -/
def sourceLanguageTriple (s : Term) (lang : String) : Triple :=
  ⟨s, Term.uri (lgontNs ++ "sourceLanguage"), Term.litS lang none⟩

/-- Invariant: every `sourceLanguage` value recorded in a graph is one of
the four classifier codes. -/
def GraphLangOK (g : List Triple) : Prop :=
  ∀ s lang, sourceLanguageTriple s lang ∈ g → lang ∈ classifierCodes

/-- A triple that cannot violate `GraphLangOK`. -/
def TripleLangOK (t : Triple) : Prop :=
  ∀ s lang, t = sourceLanguageTriple s lang → lang ∈ classifierCodes

/-! ## Partitioned store — `LimitGraphNamedGraphManager`
(`named_graphs.py`).  Only the operations the claims exercise are embedded:
`add_rlhf_feedback_trace` and `_add_audit_entry`. -/

/-- The `RLHFFeedbackTrace` dataclass. -/
structure RLHFFeedbackTrace where
  feedback_id : String
  statement_id : String
  feedback_type : String
  quality_score : ℚ
  relevance_score : ℚ
  cultural_appropriateness : ℚ
  feedback_text : Option String := none
  annotator_id : String
  timestamp : Nat
  session_id : Option String := none
deriving DecidableEq, Repr

/-- Manager state: the six named graph partitions, the uuid counter and the
abstracted clock. -/
structure NGState where
  mainG : List Triple
  provenanceG : List Triple
  annotatorsG : List Triple
  languagesG : List Triple
  rlhfG : List Triple
  auditG : List Triple
  nextUuid : Nat
  now : Nat

/-- A freshly initialized manager: six empty partitions. -/
def initNGState : NGState := ⟨[], [], [], [], [], [], 0, 0⟩

/-- `_add_audit_entry`: mint a fresh audit uri, add its type, action and
timestamp triples and one stringified triple per detail key. -/
def addAuditEntry (st : NGState) (action : String)
    (details : List (String × String)) : NGState :=
  let auditUri := Term.uri (lgprovNs ++ ("audit_" ++ uuidStr st.nextUuid))
  let ts : List Triple :=
    [⟨auditUri, .uri rdfTypeUri, .uri (lgontNs ++ "AuditEntry")⟩,
     ⟨auditUri, .uri (lgontNs ++ "action"), .litS action none⟩,
     ⟨auditUri, .uri dctermsCreatedUri, .litS (isoTime st.now) none⟩]
    ++ details.map fun kv =>
        ⟨auditUri, .uri (lgprovNs ++ cleanUriComponent kv.1), .litS kv.2 none⟩
  { st with auditG := ts.foldl addT st.auditG, nextUuid := st.nextUuid + 1 }

/-- The triples `add_rlhf_feedback_trace` adds to the rlhf partition, in
source order. -/
def feedbackTriples (tr : RLHFFeedbackTrace) : List Triple :=
  let fbUri := Term.uri (lgrlhfNs ++ ("feedback_" ++ tr.feedback_id))
  [⟨fbUri, .uri rdfTypeUri, .uri (lgontNs ++ "RLHFFeedback")⟩,
   ⟨fbUri, .uri (lgontNs ++ "feedbackId"), .litS tr.feedback_id none⟩,
   ⟨fbUri, .uri (lgontNs ++ "statementId"), .litS tr.statement_id none⟩,
   ⟨fbUri, .uri (lgontNs ++ "feedbackType"), .litS tr.feedback_type none⟩,
   ⟨fbUri, .uri (lgontNs ++ "qualityScore"), .litQ tr.quality_score⟩,
   ⟨fbUri, .uri (lgontNs ++ "relevanceScore"), .litQ tr.relevance_score⟩,
   ⟨fbUri, .uri (lgontNs ++ "culturalAppropriateness"),
    .litQ tr.cultural_appropriateness⟩,
   ⟨fbUri, .uri dctermsCreatedUri, .litS (isoTime tr.timestamp) none⟩,
   ⟨fbUri, .uri (lgontNs ++ "providedBy"), .uri (lgangNs ++ tr.annotator_id)⟩]
  ++ (match tr.feedback_text with
      | some t => [⟨fbUri, .uri (lgontNs ++ "feedbackText"), .litS t none⟩]
      | none => [])
  ++ (match tr.session_id with
      | some sid => [⟨fbUri, .uri (lgontNs ++ "sessionId"), .litS sid none⟩]
      | none => [])

/-- `add_rlhf_feedback_trace`: write the feedback triples into the rlhf
partition, append one audit entry, and return the feedback id.  No
validation of `feedback_type` is performed anywhere in the source. -/
def addRlhfFeedbackTrace (st : NGState) (tr : RLHFFeedbackTrace) :
    NGState × String :=
  let st1 := { st with rlhfG := (feedbackTriples tr).foldl addT st.rlhfG }
  let st2 := addAuditEntry st1 "rlhf_feedback_added"
    [("feedback_id", tr.feedback_id), ("annotator_id", tr.annotator_id),
     ("feedback_type", tr.feedback_type)]
  (st2, tr.feedback_id)

/-- Is this triple the `rdf:type lgont:AuditEntry` triple of an audit entry
node?  Counting these in the audit partition counts the audit entries. -/
def isAuditEntryTriple (t : Triple) : Bool :=
  decide (t.pred = Term.uri rdfTypeUri ∧ t.obj = Term.uri (lgontNs ++ "AuditEntry"))

/-- The number of `AuditEntry` nodes recorded in the audit partition. -/
def auditEntryCount (st : NGState) : Nat := st.auditG.countP isAuditEntryTriple

/-! ## Query engine — `LimitGraphSPARQLInterface`
(`sparql_interface.py`).  The underlying SPARQL engine
(`self.dataset.query`) is the black box the design document describes, so it
is a parameter: it either returns rows or raises (returns `Except.error`).
Wall-clock execution time is abstracted to 0. -/

/-- A value bound to a variable in a result row: URI or literal with an
optional language tag. -/
inductive RValue where
  | uri : String → RValue
  | lit : String → Option String → RValue
deriving DecidableEq, Repr

/-- `str(value)` on a row value. -/
def rvalueStr : RValue → String
  | .uri s => s
  | .lit s _ => s

/-- One engine result row: variable bindings in label order. -/
def Row : Type := List (String × RValue)

/-- The `result_dict` built per row: every value stringified. -/
def rowDict (r : Row) : List (String × String) := r.map fun p => (p.1, rvalueStr p.2)

/-- The distinct language tags observed among literal results, in first-seen
order (`languages_found` is a Python set). -/
def collectLangs (rows : List Row) : List String :=
  rows.foldl (fun acc r =>
    r.foldl (fun acc2 p =>
      match p.2 with
      | .lit _ (some l) => if l ∈ acc2 then acc2 else acc2 ++ [l]
      | _ => acc2) acc) []

/-- The `SPARQLQueryResult` dataclass (execution time abstracted). -/
structure SPARQLQueryResult where
  query : String
  results : List (List (String × String))
  execution_time : ℚ
  result_count : Nat
  languages_found : List String
  query_type : String
deriving DecidableEq, Repr

/-- `_determine_query_type`: case-insensitive *substring containment* with
priority select > construct > ask > describe, else `"unknown"`. -/
def determineQueryType (q : String) : String :=
  let ql := (pyLower q).data
  if containsSub ql "select".data then "select"
  else if containsSub ql "construct".data then "construct"
  else if containsSub ql "ask".data then "ask"
  else if containsSub ql "describe".data then "describe"
  else "unknown"

/-- `execute_query`: run the engine inside `try`; on success collect the
stringified rows, the literal language tags and the query type; on any
raised exception return the error-shaped result with zero rows and the
failure message, never re-raising. -/
def executeQuery (engine : String → Except String (List Row))
    (query : String) : SPARQLQueryResult :=
  match engine query with
  | .ok rows =>
    { query := query, results := rows.map rowDict, execution_time := 0,
      result_count := (rows.map rowDict).length,
      languages_found := collectLangs rows,
      query_type := determineQueryType query }
  | .error e =>
    { query := query, results := [[("error", e)]], execution_time := 0,
      result_count := 0, languages_found := [], query_type := "error" }

/-- `" || ".join` style separator join. -/
def joinSep (sep : String) : List String → String
  | [] => ""
  | [x] => x
  | x :: xs => x ++ sep ++ joinSep sep xs

/-- The filter block `multilingual_search` builds: an optional language
disjunction (`if languages and 'all' not in languages`) always followed by
the confidence filter.  `minConfStr` is the f-string rendering of the float
`min_confidence` argument. -/
def multilingualLanguageFilter (languages : Option (List String))
    (minConfStr : String) : String :=
  let lf := match languages with
    | none => ""
    | some ls =>
      if ls ≠ [] ∧ "all" ∉ ls then
        "FILTER(" ++
          joinSep " || " (ls.map fun l => "?language = \"" ++ l ++ "\"") ++ ")"
      else ""
  if lf ≠ "" then lf ++ " FILTER(?confidence >= " ++ minConfStr ++ ")"
  else "FILTER(?confidence >= " ++ minConfStr ++ ")"

/-- The `multilingual_search` template after `.format(...)`: the caller's
`search_term` is interpolated verbatim into the quoted `LCASE("...")`
literal — the source applies no escaping. -/
def multilingualSearchTemplate (searchTerm languageFilter : String) : String :=
  "\n            PREFIX lgont: <" ++ lgontNs ++ ">\n            PREFIX lglang: <"
  ++ lglangNs ++ ">\n            PREFIX rdfs: <" ++ rdfsNs ++
  ">\n            \n            SELECT ?entity ?label ?language ?text ?confidence\n            WHERE \x7b\n                ?langAnnotation lgont:annotatesStatement ?statement .\n                ?langAnnotation lgont:text ?text .\n                ?langAnnotation lgont:languageCode ?language .\n                ?langAnnotation lgont:confidence ?confidence .\n                ?statement lgont:hasSubject ?entity .\n                ?entity rdfs:label ?label .\n                FILTER(CONTAINS(LCASE(?text), LCASE(\""
  ++ searchTerm ++
  "\")))\n                " ++ languageFilter ++
  "\n            \x7d\n            ORDER BY DESC(?confidence)\n            "

/-- The query string `multilingual_search` renders and passes to
`execute_query` (template fill plus the `LIMIT` clause). -/
def renderMultilingualSearch (searchTerm : String)
    (languages : Option (List String)) (minConfStr : String) (limit : Nat) :
    String :=
  multilingualSearchTemplate searchTerm
    (multilingualLanguageFilter languages minConfStr)
  ++ "\nLIMIT " ++ toString limit

/-! ## Concrete instances used by closed theorems -/

/-- The query `multilingual_search(search_term='O"Brien')` renders with the
default languages/confidence/limit arguments. -/
def obrienQuery : String := renderMultilingualSearch "O\"Brien" none "0.5" 50

/-- A CONSTRUCT query containing a legal SPARQL 1.1 sub-SELECT. -/
def c8ConstructQuery : String :=
  "CONSTRUCT \x7b ?s ?p ?o \x7d WHERE \x7b SELECT ?s WHERE \x7b ?s ?p ?o \x7d \x7d"

/-- An engine stub whose `query` call always raises. -/
def engineAlwaysFails : String → Except String (List Row) :=
  fun _ => .error "bad query"

/-- An engine stub returning two rows, one with a language-tagged literal. -/
def engineTwoRows : String → Except String (List Row) :=
  fun _ => .ok [[("text", RValue.lit "hola" (some "es"))],
                [("entity", RValue.uri "http://limitgraph.org/data/e")]]

/-- A feedback trace whose `feedback_type` is outside
{positive, negative, correction}. -/
def badTypeTrace : RLHFFeedbackTrace :=
  { feedback_id := "fb_bad", statement_id := "statement_001",
    feedback_type := "celebration", quality_score := 1,
    relevance_score := 0, cultural_appropriateness := 1,
    feedback_text := none, annotator_id := "ann_001", timestamp := 7,
    session_id := none }

/-- The `lgont:feedbackType` triple a trace writes into the rlhf
partition. -/
def feedbackTypeTriple (tr : RLHFFeedbackTrace) : Triple :=
  ⟨Term.uri (lgrlhfNs ++ ("feedback_" ++ tr.feedback_id)),
   Term.uri (lgontNs ++ "feedbackType"), Term.litS tr.feedback_type none⟩

/-- The demo's well-formed positive feedback trace. -/
def positiveTrace : RLHFFeedbackTrace :=
  { feedback_id := "fb_001", statement_id := "statement_001",
    feedback_type := "positive", quality_score := 9/10,
    relevance_score := 17/20, cultural_appropriateness := 19/20,
    feedback_text := some "Excellent extraction of Spanish preference statement",
    annotator_id := "ann_001", timestamp := 5,
    session_id := some "session_123" }

/-! ## Helper lemmas: set-insertion graphs -/

theorem mem_addT_self (g : List Triple) (t : Triple) : t ∈ addT g t := by
  unfold addT
  split
  · assumption
  · simp

theorem mem_addT (g : List Triple) (t a : Triple) (h : a ∈ g) :
    a ∈ addT g t := by
  unfold addT
  split
  · exact h
  · simp [h]

theorem nodup_addT (g : List Triple) (t : Triple) (h : g.Nodup) :
    (addT g t).Nodup := by
  unfold addT
  split
  · exact h
  · next hn => simp [List.nodup_append, h, hn]

theorem mem_foldl_addT (ts g : List Triple) (a : Triple) (h : a ∈ g) :
    a ∈ ts.foldl addT g := by
  induction ts generalizing g with
  | nil => exact h
  | cons t ts ih => exact ih _ (mem_addT _ _ _ h)

theorem mem_foldl_addT_right (ts g : List Triple) (a : Triple) (h : a ∈ ts) :
    a ∈ ts.foldl addT g := by
  induction ts generalizing g with
  | nil => cases h
  | cons t ts ih =>
    rw [List.foldl_cons]
    rcases List.mem_cons.mp h with h1 | h2
    · subst h1
      exact mem_foldl_addT _ _ _ (mem_addT_self _ _)
    · exact ih _ h2

theorem nodup_foldl_addT (ts g : List Triple) (h : g.Nodup) :
    (ts.foldl addT g).Nodup := by
  induction ts generalizing g with
  | nil => exact h
  | cons t ts ih => exact ih _ (nodup_addT _ _ h)

theorem countP_addT_of_false (p : Triple → Bool) (g : List Triple)
    (t : Triple) (h : p t = false) : (addT g t).countP p = g.countP p := by
  unfold addT
  split
  · rfl
  · simp [List.countP_append, h]

theorem countP_addT_of_true_not_mem (p : Triple → Bool) (g : List Triple)
    (t : Triple) (hm : t ∉ g) (h : p t = true) :
    (addT g t).countP p = g.countP p + 1 := by
  unfold addT
  rw [if_neg hm]
  simp [List.countP_append, h]

theorem countP_foldl_addT_false (p : Triple → Bool) (ts g : List Triple)
    (h : ∀ t ∈ ts, p t = false) :
    (ts.foldl addT g).countP p = g.countP p := by
  induction ts generalizing g with
  | nil => rfl
  | cons t ts ih =>
    rw [List.foldl_cons, ih _ fun x hx => h x (List.mem_cons_of_mem _ hx),
      countP_addT_of_false _ _ _ (h t (List.mem_cons_self _ _))]

/-! ## Helper lemmas: the language classifier -/

theorem maxBySndAux_mem (l : List (String × ℚ)) (b : String × ℚ) :
    maxBySndAux b l = b ∨ maxBySndAux b l ∈ l := by
  induction l generalizing b with
  | nil => left; rfl
  | cons y ys ih =>
    rcases ih (if b.2 < y.2 then y else b) with h | h
    · by_cases hb : b.2 < y.2
      · right
        rw [show maxBySndAux b (y :: ys) = maxBySndAux (if b.2 < y.2 then y else b) ys from rfl, h, if_pos hb]
        exact List.mem_cons_self _ _
      · left
        rw [show maxBySndAux b (y :: ys) = maxBySndAux (if b.2 < y.2 then y else b) ys from rfl, h, if_neg hb]
    · right
      rw [show maxBySndAux b (y :: ys) = maxBySndAux (if b.2 < y.2 then y else b) ys from rfl]
      exact List.mem_cons_of_mem _ h

theorem maxBySnd_mem (l : List (String × ℚ)) (p : String × ℚ)
    (h : maxBySnd l = some p) : p ∈ l := by
  cases l with
  | nil => cases h
  | cons x xs =>
    have hx : maxBySndAux x xs = p := by
      simpa [maxBySnd] using h
    rw [← hx]
    rcases maxBySndAux_mem xs x with h2 | h2
    · rw [h2]; exact List.mem_cons_self _ _
    · exact List.mem_cons_of_mem _ h2

theorem languageScores_fst_mem (ws : List String) (e : String × ℚ)
    (h : e ∈ languageScores ws) : e.1 ∈ classifierCodes := by
  unfold languageScores at h
  rcases List.mem_filterMap.mp h with ⟨lp, hlp, hfa⟩
  by_cases hc : 0 < ws.countP fun w => decide (w ∈ lp.2)
  · rw [if_pos hc, Option.some_inj] at hfa
    have h1 : e.1 = lp.1 := by rw [← hfa]
    rw [h1]
    fin_cases hlp <;> simp [classifierCodes]
  · rw [if_neg hc] at hfa
    cases hfa

theorem languageScores_pos_len (ws : List String) (e : String × ℚ)
    (h : e ∈ languageScores ws) : 0 < ws.length := by
  unfold languageScores at h
  rcases List.mem_filterMap.mp h with ⟨lp, _, hfa⟩
  by_cases hc : 0 < ws.countP fun w => decide (w ∈ lp.2)
  · exact lt_of_lt_of_le hc (List.countP_le_length _)
  · rw [if_neg hc] at hfa
    cases hfa

theorem detectLanguage_mem (t : String) : detectLanguage t ∈ classifierCodes := by
  unfold detectLanguage
  split
  · simp [classifierCodes]
  · split
    · next p hp => exact languageScores_fst_mem _ _ (maxBySnd_mem _ _ hp)
    · simp [classifierCodes]

theorem toLower_whitespace (c : Char) (h : c.isWhitespace = true) :
    c.toLower = c := by
  have : ((c = ' ' ∨ c = '\t') ∨ c = '\r') ∨ c = '\n' := by
    simpa [Char.isWhitespace] using h
  rcases this with ((h1 | h1) | h1) | h1 <;> subst h1 <;> decide

theorem pyWordsAux_all_ws (cs : List Char)
    (h : ∀ c ∈ cs, c.isWhitespace = true) : pyWordsAux cs [] = [] := by
  induction cs with
  | nil => rfl
  | cons c cs ih =>
    have hc := h c (List.mem_cons_self _ _)
    simp only [pyWordsAux, hc, if_true]
    exact ih fun x hx => h x (List.mem_cons_of_mem _ hx)

theorem pyWords_all_ws (t : String)
    (h : ∀ c ∈ t.data, c.isWhitespace = true) : pyWords (pyLower t) = [] := by
  show pyWordsAux (t.data.map Char.toLower) [] = []
  apply pyWordsAux_all_ws
  intro c hc
  rcases List.mem_map.mp hc with ⟨d, hd, rfl⟩
  rw [toLower_whitespace d (h d hd)]
  exact h d hd

theorem languageScores_nil : languageScores [] = [] := rfl

/-! ## Claims C5 and C9 -/

/-- C5: for every input text the language classifier `detect_language`
returns a code in the supported four-code set; it is deterministic (equal
inputs give equal outputs — it is a pure function of the text); and when the
text is empty or no language attains a positive stop-word score it returns
the default code `"en"`. -/
theorem detect_language_supported_deterministic_default (t : String) :
    detectLanguage t ∈ classifierCodes ∧
    (∀ t', t' = t → detectLanguage t' = detectLanguage t) ∧
    ((t = "" ∨ languageScores (pyWords (pyLower t)) = []) →
      detectLanguage t = "en") := by
  refine ⟨detectLanguage_mem t, fun t' h => by rw [h], ?_⟩
  rintro (h | h)
  · subst h; rfl
  · unfold detectLanguage
    split
    · rfl
    · rw [h]; rfl

/-- Witness for C5 at concrete inputs. -/
theorem detect_language_supported_witness :
    detectLanguage "A Andrés le gustan las manzanas." ∈ classifierCodes ∧
    detectLanguage "" = "en" :=
  ⟨(detect_language_supported_deterministic_default _).1,
   (detect_language_supported_deterministic_default "").2.2 (Or.inl rfl)⟩

/-- C9: the classifier is total — every score entry recorded in
`language_scores` implies a positive token count (the guarded division
`score / len(words)` is never evaluated with zero tokens), and on
whitespace-only text the token list is empty, so no score entry exists and
the classifier returns the default `"en"`. -/
theorem detect_language_no_division_by_zero (t : String) :
    (∀ e ∈ languageScores (pyWords (pyLower t)),
      0 < (pyWords (pyLower t)).length) ∧
    ((∀ c ∈ t.data, c.isWhitespace = true) →
      pyWords (pyLower t) = [] ∧ detectLanguage t = "en") := by
  constructor
  · intro e he
    exact languageScores_pos_len _ _ he
  · intro h
    have hw := pyWords_all_ws t h
    refine ⟨hw, ?_⟩
    unfold detectLanguage
    split
    · rfl
    · rw [hw, languageScores_nil]; rfl

/-- Witness for C9 at the whitespace-only input `" "`. -/
theorem detect_language_no_division_witness :
    pyWords (pyLower " ") = [] ∧ detectLanguage " " = "en" :=
  (detect_language_no_division_by_zero " ").2 (by decide)

/-! ## Claim C7: identifier cleaning and minting -/

theorem data_mk (l : List Char) : (String.mk l).data = l := rfl

theorem count_underscore_clean (l : List Char) :
    ((((l.map fun c => if c = ' ' then '_' else c).map
        fun c => if c = '-' then '_' else c).filter
      fun c => pyWordChar c).count '_') =
    l.countP fun c => decide (c = ' ' ∨ c = '-' ∨ c = '_') := by
  induction l with
  | nil => rfl
  | cons c cs ih =>
    simp only [List.map_cons]
    by_cases h1 : c = ' '
    · subst h1
      rw [if_pos rfl, if_neg (by decide), List.filter_cons_of_pos (by decide),
        List.count_cons, ih, List.countP_cons]
      simp
    · rw [if_neg h1]
      by_cases h2 : c = '-'
      · subst h2
        rw [if_pos rfl, List.filter_cons_of_pos (by decide), List.count_cons,
          ih, List.countP_cons]
        simp
      · rw [if_neg h2]
        by_cases h3 : pyWordChar c = true
        · rw [List.filter_cons_of_pos h3, List.count_cons, ih, List.countP_cons]
          by_cases h4 : c = '_'
          · subst h4
            simp
          · simp [h1, h2, h4]
        · rw [List.filter_cons_of_neg (by simp [h3]), ih, List.countP_cons]
          have h4 : c ≠ '_' := by
            rintro rfl
            exact h3 (by decide)
          simp [h1, h2, h4]

/-- C7 counterexample: the source replaces only the space character
U+0020 (and hyphens) with the connector; a tab — a whitespace character —
is silently dropped instead, diverging from the claimed cleaning rule
(embodied by `cleanUriComponentSpec`, which would produce `"a_b"`). -/
theorem clean_uri_component_counterexample :
    cleanUriComponent "a\tb" = "ab" ∧ cleanUriComponentSpec "a\tb" = "a_b" ∧
    cleanUriComponent "a\tb" ≠ cleanUriComponentSpec "a\tb" := by decide

/-- C7 as amended: (a) every *space* character and every hyphen (and every
underscore already present) contributes exactly one connector `_` to the
cleaned identifier — other whitespace is dropped by rule (b) rather than
replaced; (b) every character of the cleaned identifier is alphanumeric or
the connector; (c) identifiers are prefixed by their namespace, so minting
the same label in two different namespaces can never collide. -/
theorem clean_uri_component_amended (s : String) :
    (∀ c ∈ (cleanUriComponent s).data, pyWordChar c = true) ∧
    ((cleanUriComponent s).data.count '_' =
      s.data.countP fun c => decide (c = ' ' ∨ c = '-' ∨ c = '_')) ∧
    (∀ ns1 ns2 lab : String, ns1 ≠ ns2 →
      nsTerm ns1 (cleanUriComponent lab) ≠ nsTerm ns2 (cleanUriComponent lab)) := by
  refine ⟨?_, ?_, ?_⟩
  · intro c hc
    simp only [cleanUriComponent, data_mk] at hc
    exact (List.mem_filter.mp hc).2
  · simp only [cleanUriComponent, data_mk]
    exact count_underscore_clean s.data
  · intro ns1 ns2 lab hne heq
    apply hne
    have hd : ns1.data ++ (cleanUriComponent lab).data =
        ns2.data ++ (cleanUriComponent lab).data := by
      have := congrArg String.data heq
      simpa [nsTerm, String.data_append] using this
    exact String.ext (List.append_cancel_right hd)

/-- Witness for the amended C7: a concrete cleaned character is legal, and
the same label minted in the data and ontology namespaces differs. -/
theorem clean_uri_component_amended_witness :
    pyWordChar 'h' = true ∧
    nsTerm lgdataNs (cleanUriComponent "likes") ≠
      nsTerm lgontNs (cleanUriComponent "likes") :=
  ⟨(clean_uri_component_amended "hello").1 'h' (by decide),
   (clean_uri_component_amended "likes").2.2 lgdataNs lgontNs "likes" (by decide)⟩

/-! ## Claim C8: query shape classification -/

theorem containsSub_of_startsWith (hay pat : List Char)
    (h : startsWithList hay pat = true) : containsSub hay pat = true := by
  cases hay with
  | nil =>
    cases pat with
    | nil => rfl
    | cons p ps => cases h
  | cons c cs => simp [containsSub, h]

/-- C8 counterexample: a query that *begins* with `CONSTRUCT` but contains a
legal sub-`SELECT` is classified `"select"`, not `"construct"` — the source
classifies by substring containment with priority select > construct > ask >
describe, not by the leading keyword. -/
theorem determine_query_type_counterexample :
    startsWithList (pyLower c8ConstructQuery).data "construct".data = true ∧
    determineQueryType c8ConstructQuery = "select" ∧
    ("select" : String) ≠ "construct" := by decide

/-- C8 as amended: the classifier looks for the keywords as case-insensitive
substrings anywhere in the query, in the priority order select, construct,
ask, describe; the leading keyword therefore determines the classification
only when no higher-priority keyword occurs anywhere in the query text. -/
theorem determine_query_type_amended (q : String) :
    (startsWithList (pyLower q).data "select".data = true →
      determineQueryType q = "select") ∧
    (startsWithList (pyLower q).data "construct".data = true →
      containsSub (pyLower q).data "select".data = false →
      determineQueryType q = "construct") ∧
    (startsWithList (pyLower q).data "ask".data = true →
      containsSub (pyLower q).data "select".data = false →
      containsSub (pyLower q).data "construct".data = false →
      determineQueryType q = "ask") ∧
    (startsWithList (pyLower q).data "describe".data = true →
      containsSub (pyLower q).data "select".data = false →
      containsSub (pyLower q).data "construct".data = false →
      containsSub (pyLower q).data "ask".data = false →
      determineQueryType q = "describe") := by
  refine ⟨?_, ?_, ?_, ?_⟩
  · intro h
    simp [determineQueryType, containsSub_of_startsWith _ _ h]
  · intro h h1
    simp [determineQueryType, h1, containsSub_of_startsWith _ _ h]
  · intro h h1 h2
    simp [determineQueryType, h1, h2, containsSub_of_startsWith _ _ h]
  · intro h h1 h2 h3
    simp [determineQueryType, h1, h2, h3, containsSub_of_startsWith _ _ h]

/-- Witness for the amended C8 at concrete queries. -/
theorem determine_query_type_amended_witness :
    determineQueryType "SELECT ?s WHERE \x7b ?s ?p ?o \x7d" = "select" ∧
    determineQueryType "ASK \x7b ?s ?p ?o \x7d" = "ask" :=
  ⟨(determine_query_type_amended _).1 (by decide),
   (determine_query_type_amended _).2.2.1 (by decide) (by decide) (by decide)⟩

/-! ## Claim C4: `execute_query` never propagates engine exceptions -/

/-- C4: for every query, when the engine raises, `execute_query` returns the
error-shaped result — zero rows, query type `"error"`, and the failure
message in the result payload — instead of propagating the exception; when
the engine succeeds it returns the stringified rows with `result_count`
equal to the number of rows and the query's classified type. -/
theorem execute_query_captures_failures
    (engine : String → Except String (List Row)) (q : String) :
    (∀ e, engine q = .error e →
      executeQuery engine q =
        ⟨q, [[("error", e)]], 0, 0, [], "error"⟩) ∧
    (∀ rows, engine q = .ok rows →
      (executeQuery engine q).result_count = rows.length ∧
      (executeQuery engine q).results = rows.map rowDict ∧
      (executeQuery engine q).query_type = determineQueryType q) := by
  constructor
  · intro e he
    simp [executeQuery, he]
  · intro rows hr
    simp [executeQuery, hr]

/-- Witness for C4: a failing engine yields the error-shaped result, a
two-row engine yields `result_count = 2`. -/
theorem execute_query_captures_failures_witness :
    executeQuery engineAlwaysFails "SELECT ?s" =
      ⟨"SELECT ?s", [[("error", "bad query")]], 0, 0, [], "error"⟩ ∧
    (executeQuery engineTwoRows "SELECT ?s").result_count = 2 :=
  ⟨(execute_query_captures_failures engineAlwaysFails "SELECT ?s").1
      "bad query" rfl,
   ((execute_query_captures_failures engineTwoRows "SELECT ?s").2 _ rfl).1⟩

/-! ## Claim C1: `multilingual_search` does not escape the search term -/

set_option maxRecDepth 40000 in
/-- C1 (code bug): rendering `multilingual_search(search_term='O"Brien')`
interpolates the quote of the search term verbatim: the rendered query
contains `LCASE("O"Brien")`, holds no backslash at all (so no escape was
applied anywhere), and has an odd number of double quotes — its quoted
string literals cannot be balanced, so the query is syntactically broken and
the caller-supplied term can break out of the string literal. -/
theorem multilingual_search_no_escaping :
    obrienQuery.data.count '"' = 3 ∧
    containsSub obrienQuery.data "LCASE(\"O\"Brien\")".data = true ∧
    obrienQuery.data.count '\\' = 0 := by decide

/-! ## Claims C2 and C6: feedback writes and the audit partition -/

theorem isAuditEntryTriple_litS (s p : Term) (v : String)
    (tag : Option String) : isAuditEntryTriple ⟨s, p, .litS v tag⟩ = false := by
  simp only [isAuditEntryTriple, decide_eq_false_iff_not]
  rintro ⟨-, h⟩
  exact Term.noConfusion h

theorem isAuditEntryTriple_type (s : Term) :
    isAuditEntryTriple ⟨s, .uri rdfTypeUri, .uri (lgontNs ++ "AuditEntry")⟩ = true := by
  simp [isAuditEntryTriple]

theorem auditCount_addAuditEntry (st : NGState) (action : String)
    (details : List (String × String))
    (fresh : ∀ t ∈ st.auditG,
      t.subj ≠ Term.uri (lgprovNs ++ ("audit_" ++ uuidStr st.nextUuid))) :
    (addAuditEntry st action details).auditG.countP isAuditEntryTriple =
      st.auditG.countP isAuditEntryTriple + 1 := by
  have hnm : (⟨Term.uri (lgprovNs ++ ("audit_" ++ uuidStr st.nextUuid)),
      .uri rdfTypeUri, .uri (lgontNs ++ "AuditEntry")⟩ : Triple) ∉ st.auditG := by
    intro hmem
    exact fresh _ hmem rfl
  show ((([_, _, _] : List Triple) ++ _).foldl addT st.auditG).countP _ = _
  rw [List.cons_append, List.cons_append, List.cons_append, List.nil_append,
    List.foldl_cons, List.foldl_cons, List.foldl_cons,
    countP_foldl_addT_false _ _ _ ?hdet,
    countP_addT_of_false _ _ _ (isAuditEntryTriple_litS _ _ _ _),
    countP_addT_of_false _ _ _ (isAuditEntryTriple_litS _ _ _ _),
    countP_addT_of_true_not_mem _ _ _ hnm (isAuditEntryTriple_type _)]
  case hdet =>
    intro t ht
    rcases List.mem_map.mp ht with ⟨kv, -, rfl⟩
    exact isAuditEntryTriple_litS _ _ _ _

/-- C6: every call of `add_rlhf_feedback_trace` appends exactly one new
`AuditEntry` node to the audit partition, whatever the feedback's content,
provided the freshly drawn audit uuid does not collide with an existing
audit node (the design treats uuid collisions as negligible, not as a hard
invariant). -/
theorem add_feedback_audit_increment (st : NGState) (tr : RLHFFeedbackTrace)
    (fresh : ∀ t ∈ st.auditG,
      t.subj ≠ Term.uri (lgprovNs ++ ("audit_" ++ uuidStr st.nextUuid))) :
    auditEntryCount (addRlhfFeedbackTrace st tr).1 = auditEntryCount st + 1 := by
  unfold addRlhfFeedbackTrace auditEntryCount
  exact auditCount_addAuditEntry _ _ _ fresh

/-- Witness for C6 on the demo's positive trace from the empty store. -/
theorem add_feedback_audit_increment_witness :
    auditEntryCount (addRlhfFeedbackTrace initNGState positiveTrace).1 =
      auditEntryCount initNGState + 1 :=
  add_feedback_audit_increment initNGState positiveTrace
    (fun t ht => absurd ht (List.not_mem_nil t))

set_option maxHeartbeats 4000000 in
/-- C2 counterexample: a trace whose `feedback_type` is `"celebration"` —
outside {positive, negative, correction} — is accepted: the call returns the
feedback id (there is no `InvalidFeedbackKind` failure anywhere in the
source), the rlhf partition gains nine triples, and one audit entry is
appended; the claim's required behaviour (fail and leave the store
unchanged) is violated. -/
theorem add_feedback_no_validation_counterexample :
    badTypeTrace.feedback_type ∉
      (["positive", "negative", "correction"] : List String) ∧
    (addRlhfFeedbackTrace initNGState badTypeTrace).2 =
      badTypeTrace.feedback_id ∧
    (addRlhfFeedbackTrace initNGState badTypeTrace).1.rlhfG.length = 9 ∧
    auditEntryCount (addRlhfFeedbackTrace initNGState badTypeTrace).1 = 1 := by
  decide

/-- C2 as amended: `add_rlhf_feedback_trace` validates nothing — for every
trace whose `feedback_type` lies outside {positive, negative, correction}
the operation still succeeds, returning the feedback id, writing the trace's
`feedbackType` triple into the rlhf partition, and appending exactly one
audit entry (under the same negligible-uuid-collision proviso as C6). -/
theorem addRlhfFeedbackTrace_fst (st : NGState) (tr : RLHFFeedbackTrace) :
    (addRlhfFeedbackTrace st tr).1 =
      addAuditEntry
        { st with rlhfG := (feedbackTriples tr).foldl addT st.rlhfG }
        "rlhf_feedback_added"
        [("feedback_id", tr.feedback_id), ("annotator_id", tr.annotator_id),
         ("feedback_type", tr.feedback_type)] := rfl

theorem addAuditEntry_rlhfG (st : NGState) (a : String)
    (d : List (String × String)) : (addAuditEntry st a d).rlhfG = st.rlhfG :=
  rfl

theorem mk_rlhfG (m p an l r au : List Triple) (n t : Nat) :
    (NGState.mk m p an l r au n t).rlhfG = r := rfl

theorem add_feedback_accepts_all_types (st : NGState) (tr : RLHFFeedbackTrace)
    (_hbad : tr.feedback_type ∉
      (["positive", "negative", "correction"] : List String))
    (fresh : ∀ t ∈ st.auditG,
      t.subj ≠ Term.uri (lgprovNs ++ ("audit_" ++ uuidStr st.nextUuid))) :
    (addRlhfFeedbackTrace st tr).2 = tr.feedback_id ∧
    feedbackTypeTriple tr ∈ (addRlhfFeedbackTrace st tr).1.rlhfG ∧
    auditEntryCount (addRlhfFeedbackTrace st tr).1 = auditEntryCount st + 1 := by
  refine ⟨rfl, ?_, ?_⟩
  · rw [addRlhfFeedbackTrace_fst, addAuditEntry_rlhfG, mk_rlhfG]
    apply mem_foldl_addT_right
    simp [feedbackTriples, feedbackTypeTriple]
  · unfold addRlhfFeedbackTrace auditEntryCount
    exact auditCount_addAuditEntry _ _ _ fresh

/-- Witness for the amended C2 on the `"celebration"` trace from the empty
store. -/
theorem add_feedback_accepts_all_types_witness :
    (addRlhfFeedbackTrace initNGState badTypeTrace).2 =
      badTypeTrace.feedback_id ∧
    feedbackTypeTriple badTypeTrace ∈
      (addRlhfFeedbackTrace initNGState badTypeTrace).1.rlhfG ∧
    auditEntryCount (addRlhfFeedbackTrace initNGState badTypeTrace).1 =
      auditEntryCount initNGState + 1 :=
  add_feedback_accepts_all_types initNGState badTypeTrace (by decide)
    (fun t ht => absurd ht (List.not_mem_nil t))

/-! ## Helper lemmas for the corpus conversion (claims C3 and C10) -/

theorem append_ne_of_take_ne (a b x y : List Char) (n : Nat)
    (ha : n ≤ a.length) (hb : n ≤ b.length) (hne : a.take n ≠ b.take n) :
    a ++ x ≠ b ++ y := by
  intro h
  apply hne
  have h1 : (a ++ x).take n = a.take n := List.take_append_of_le_length ha
  have h2 : (b ++ y).take n = b.take n := List.take_append_of_le_length hb
  rw [← h1, ← h2, h]

theorem uri_ns_ne (ns1 ns2 k1 k2 : String) (n : Nat)
    (h1 : n ≤ ns1.data.length) (h2 : n ≤ ns2.data.length)
    (hne : ns1.data.take n ≠ ns2.data.take n) :
    Term.uri (ns1 ++ k1) ≠ Term.uri (ns2 ++ k2) := by
  intro h
  injection h with h'
  have hd : ns1.data ++ k1.data = ns2.data ++ k2.data := by
    simpa [String.data_append] using congrArg String.data h'
  exact append_ne_of_take_ne _ _ _ _ n h1 h2 hne hd

theorem tlok_pred_ne (s o : Term) (p : Term)
    (hp : p ≠ Term.uri (lgontNs ++ "sourceLanguage")) :
    TripleLangOK ⟨s, p, o⟩ := by
  rintro s' lang h
  injection h with h1 h2 h3
  exact absurd h2 hp

theorem tlok_uri_obj (s p : Term) (u : String) :
    TripleLangOK ⟨s, p, Term.uri u⟩ := by
  rintro s' lang h
  injection h with h1 h2 h3
  exact Term.noConfusion h3

theorem tlok_litQ_obj (s p : Term) (q : ℚ) :
    TripleLangOK ⟨s, p, Term.litQ q⟩ := by
  rintro s' lang h
  injection h with h1 h2 h3
  exact Term.noConfusion h3

theorem tlok_tagged_obj (s p : Term) (v tag : String) :
    TripleLangOK ⟨s, p, Term.litS v (some tag)⟩ := by
  rintro s' lang h
  injection h with h1 h2 h3
  injection h3 with h4 h5
  exact Option.noConfusion h5

theorem tlok_source_language (s : Term) (lang0 : String)
    (hl : lang0 ∈ classifierCodes) :
    TripleLangOK ⟨s, Term.uri (lgontNs ++ "sourceLanguage"),
      Term.litS lang0 none⟩ := by
  rintro s' lang h
  injection h with h1 h2 h3
  injection h3 with h4 h5
  rw [← h4]
  exact hl

theorem prov_detail_pred_ne (k : String) :
    Term.uri (lgprovNs ++ k) ≠ Term.uri (lgontNs ++ "sourceLanguage") :=
  uri_ns_ne lgprovNs lgontNs k "sourceLanguage" 23 (by decide) (by decide)
    (by decide)

theorem rlhf_detail_pred_ne (k : String) :
    Term.uri (lgrlhfNs ++ k) ≠ Term.uri (lgontNs ++ "sourceLanguage") :=
  uri_ns_ne lgrlhfNs lgontNs k "sourceLanguage" 23 (by decide) (by decide)
    (by decide)

theorem provTriples_tlok (stmtU subjT predT objT : Term)
    (tr : LimitGraphTriple) (hl : tr.source_language ∈ classifierCodes) :
    ∀ t ∈ provTriplesOf stmtU tr subjT predT objT, TripleLangOK t := by
  intro t ht
  unfold provTriplesOf at ht
  rcases List.mem_append.mp ht with h | h
  · simp only [List.mem_cons, List.not_mem_nil, or_false] at h
    rcases h with rfl | rfl | rfl | rfl | rfl | rfl | rfl | rfl
    · exact tlok_pred_ne _ _ _ (by decide)
    · exact tlok_pred_ne _ _ _ (by decide)
    · exact tlok_pred_ne _ _ _ (by decide)
    · exact tlok_pred_ne _ _ _ (by decide)
    · exact tlok_litQ_obj _ _ _
    · exact tlok_source_language _ _ hl
    · exact tlok_pred_ne _ _ _ (by decide)
    · exact tlok_pred_ne _ _ _ (by decide)
  · rcases hp : tr.provenance with - | kvs
    · rw [hp] at h
      cases h
    · rw [hp] at h
      rcases List.mem_map.mp h with ⟨kv, -, rfl⟩
      exact tlok_pred_ne _ _ _ (prov_detail_pred_ne _)

theorem rlhfTriples_tlok (stmtU fbU : Term) (fb : List (String × PyVal)) :
    ∀ t ∈ rlhfTriplesOf stmtU fbU fb, TripleLangOK t := by
  intro t ht
  unfold rlhfTriplesOf at ht
  rcases List.mem_append.mp ht with h | h
  · simp only [List.mem_cons, List.not_mem_nil, or_false] at h
    rcases h with rfl | rfl
    · exact tlok_pred_ne _ _ _ (by decide)
    · exact tlok_pred_ne _ _ _ (by decide)
  · rcases List.mem_map.mp h with ⟨kv, -, rfl⟩
    exact tlok_pred_ne _ _ _ (rlhf_detail_pred_ne _)

theorem docTriples_tlok (docUri : Term) (docId text lang : String) :
    ∀ t ∈ documentTriples docUri docId text lang, TripleLangOK t := by
  intro t ht
  unfold documentTriples at ht
  simp only [List.mem_cons, List.not_mem_nil, or_false] at ht
  rcases ht with rfl | rfl | rfl | rfl | rfl
  · exact tlok_pred_ne _ _ _ (by decide)
  · exact tlok_pred_ne _ _ _ (by decide)
  · exact tlok_pred_ne _ _ _ (by decide)
  · exact tlok_pred_ne _ _ _ (by decide)
  · exact tlok_pred_ne _ _ _ (by decide)

theorem graphLangOK_addT (g : List Triple) (t : Triple) (hg : GraphLangOK g)
    (ht : TripleLangOK t) : GraphLangOK (addT g t) := by
  intro s lang hmem
  unfold addT at hmem
  split at hmem
  · exact hg _ _ hmem
  · rcases List.mem_append.mp hmem with h | h
    · exact hg _ _ h
    · rcases List.mem_singleton.mp h with rfl
      exact ht _ _ rfl

theorem graphLangOK_foldl (ts g : List Triple) (hg : GraphLangOK g)
    (hts : ∀ t ∈ ts, TripleLangOK t) : GraphLangOK (ts.foldl addT g) := by
  induction ts generalizing g with
  | nil => exact hg
  | cons t ts ih =>
    rw [List.foldl_cons]
    exact ih _ (graphLangOK_addT _ _ hg (hts t (List.mem_cons_self _ _)))
      fun x hx => hts x (List.mem_cons_of_mem _ hx)

theorem addTripleToGraph_graph_none (tr : LimitGraphTriple) (st : GenState)
    (h : tr.rlhf_feedback = none) :
    ((addTripleToGraph tr st).2).graph =
      (statementTriples tr (uuidStr st.nextUuid)).foldl addT
        (addT st.graph (mainTripleOf tr)) := by
  simp only [addTripleToGraph, h]

theorem graph_mono_addTripleToGraph (tr : LimitGraphTriple) (st : GenState)
    (hfb : tr.rlhf_feedback = none) (a : Triple) (h : a ∈ st.graph) :
    a ∈ ((addTripleToGraph tr st).2).graph := by
  rw [addTripleToGraph_graph_none _ _ hfb]
  exact mem_foldl_addT _ _ _ (mem_addT _ _ _ h)

theorem mainTriple_mem_addTripleToGraph (tr : LimitGraphTriple)
    (st : GenState) (hfb : tr.rlhf_feedback = none) :
    mainTripleOf tr ∈ ((addTripleToGraph tr st).2).graph := by
  rw [addTripleToGraph_graph_none _ _ hfb]
  exact mem_foldl_addT _ _ _ (mem_addT_self _ _)

theorem nodup_addTripleToGraph (tr : LimitGraphTriple) (st : GenState)
    (hfb : tr.rlhf_feedback = none) (h : st.graph.Nodup) :
    ((addTripleToGraph tr st).2).graph.Nodup := by
  rw [addTripleToGraph_graph_none _ _ hfb]
  exact nodup_foldl_addT _ _ (nodup_addT _ _ h)

theorem tlok_mainTriple (tr : LimitGraphTriple) :
    TripleLangOK (mainTripleOf tr) := by
  rintro s lang h
  unfold mainTripleOf at h
  injection h with h1 h2 h3
  unfold objectTermOf at h3
  split at h3
  · exact Term.noConfusion h3
  · injection h3 with h4 h5
    exact Option.noConfusion h5

theorem graphLangOK_addTripleToGraph (tr : LimitGraphTriple) (st : GenState)
    (hfb : tr.rlhf_feedback = none)
    (hl : tr.source_language ∈ classifierCodes)
    (hg : GraphLangOK st.graph) :
    GraphLangOK ((addTripleToGraph tr st).2).graph := by
  rw [addTripleToGraph_graph_none _ _ hfb]
  exact graphLangOK_foldl _ _
    (graphLangOK_addT _ _ hg (tlok_mainTriple tr))
    (provTriples_tlok _ _ _ _ _ hl)

theorem convertStep_eq (ann txt : String) (p : GenState × Nat)
    (cand : CandidateTriple) :
    convertStep ann txt p cand =
      ((addTripleToGraph (convertLimitgraphEdgeToTriple p.1.now cand.subject
        cand.predicate cand.object cand.confidence ann none txt) p.1).2,
       p.2 + 1) := by
  simp only [convertStep]

theorem convertEdge_rlhf (now : Nat) (s p o : String) (c : ℚ) (a : String)
    (fb : Option (List (String × PyVal))) (txt : String) :
    (convertLimitgraphEdgeToTriple now s p o c a fb txt).rlhf_feedback = fb :=
  rfl

theorem convertEdge_lang (now : Nat) (s p o : String) (c : ℚ) (a : String)
    (fb : Option (List (String × PyVal))) (txt : String) :
    (convertLimitgraphEdgeToTriple now s p o c a fb txt).source_language =
      detectLanguage (s ++ " " ++ p ++ " " ++ o ++ " " ++ txt) := rfl

theorem graph_mono_convertStep (ann txt : String) (p : GenState × Nat)
    (cand : CandidateTriple) (a : Triple) (h : a ∈ p.1.graph) :
    a ∈ ((convertStep ann txt p cand).1).graph := by
  rw [convertStep_eq]
  exact graph_mono_addTripleToGraph _ _ (convertEdge_rlhf _ _ _ _ _ _ _ _) _ h

theorem nodup_convertStep (ann txt : String) (p : GenState × Nat)
    (cand : CandidateTriple) (h : p.1.graph.Nodup) :
    ((convertStep ann txt p cand).1).graph.Nodup := by
  rw [convertStep_eq]
  exact nodup_addTripleToGraph _ _ (convertEdge_rlhf _ _ _ _ _ _ _ _) h

theorem graphLangOK_convertStep (ann txt : String) (p : GenState × Nat)
    (cand : CandidateTriple) (hg : GraphLangOK p.1.graph) :
    GraphLangOK ((convertStep ann txt p cand).1).graph := by
  rw [convertStep_eq]
  refine graphLangOK_addTripleToGraph _ _ (convertEdge_rlhf _ _ _ _ _ _ _ _)
    ?_ hg
  rw [convertEdge_lang]
  exact detectLanguage_mem _

theorem graph_mono_foldl_convertStep (ann txt : String)
    (cands : List CandidateTriple) (p : GenState × Nat) (a : Triple)
    (h : a ∈ p.1.graph) :
    a ∈ ((cands.foldl (convertStep ann txt) p).1).graph := by
  induction cands generalizing p with
  | nil => exact h
  | cons c cs ih =>
    rw [List.foldl_cons]
    exact ih _ (graph_mono_convertStep _ _ _ _ _ h)

theorem nodup_foldl_convertStep (ann txt : String)
    (cands : List CandidateTriple) (p : GenState × Nat)
    (h : p.1.graph.Nodup) :
    ((cands.foldl (convertStep ann txt) p).1).graph.Nodup := by
  induction cands generalizing p with
  | nil => exact h
  | cons c cs ih =>
    rw [List.foldl_cons]
    exact ih _ (nodup_convertStep _ _ _ _ h)

theorem graphLangOK_foldl_convertStep (ann txt : String)
    (cands : List CandidateTriple) (p : GenState × Nat)
    (hg : GraphLangOK p.1.graph) :
    GraphLangOK ((cands.foldl (convertStep ann txt) p).1).graph := by
  induction cands generalizing p with
  | nil => exact hg
  | cons c cs ih =>
    rw [List.foldl_cons]
    exact ih _ (graphLangOK_convertStep _ _ _ _ hg)

theorem graph_mono_processDoc (ann : String)
    (acc : GenState × List String × Nat) (doc : Doc) (a : Triple)
    (h : a ∈ acc.1.graph) : a ∈ ((processDoc ann acc doc).1).graph := by
  simp only [processDoc]
  split
  · exact h
  · exact graph_mono_foldl_convertStep _ _ _ _ _ (mem_foldl_addT _ _ _ h)

theorem nodup_processDoc (ann : String) (acc : GenState × List String × Nat)
    (doc : Doc) (h : acc.1.graph.Nodup) :
    ((processDoc ann acc doc).1).graph.Nodup := by
  simp only [processDoc]
  split
  · exact h
  · exact nodup_foldl_convertStep _ _ _ _ (nodup_foldl_addT _ _ h)

theorem inv_processDoc (ann : String) (acc : GenState × List String × Nat)
    (doc : Doc) (hg : GraphLangOK acc.1.graph)
    (hl : ∀ l ∈ acc.2.1, l ∈ classifierCodes) :
    GraphLangOK ((processDoc ann acc doc).1).graph ∧
      ∀ l ∈ (processDoc ann acc doc).2.1, l ∈ classifierCodes := by
  obtain ⟨oid, txt⟩ := doc
  cases oid with
  | some i =>
    simp only [processDoc]
    split
    · exact ⟨hg, hl⟩
    · refine ⟨graphLangOK_foldl_convertStep _ _ _ _
        (graphLangOK_foldl _ _ hg (docTriples_tlok _ _ _ _)), ?_⟩
      intro l hmem
      split at hmem
      · exact hl _ hmem
      · rcases List.mem_append.mp hmem with h | h
        · exact hl _ h
        · rcases List.mem_singleton.mp h with rfl
          exact detectLanguage_mem _
  | none =>
    simp only [processDoc]
    split
    · exact ⟨hg, hl⟩
    · refine ⟨graphLangOK_foldl_convertStep _ _ _ _
        (graphLangOK_foldl _ _ hg (docTriples_tlok _ _ _ _)), ?_⟩
      intro l hmem
      split at hmem
      · exact hl _ hmem
      · rcases List.mem_append.mp hmem with h | h
        · exact hl _ h
        · rcases List.mem_singleton.mp h with rfl
          exact detectLanguage_mem _

theorem ct_main_eq (now : Nat) (ann did txt : String) :
    mainTripleOf (convertLimitgraphEdgeToTriple now ("document_" ++ did)
      "contains_text" txt 1 ann none txt) = containsTextFact did txt := by
  simp only [mainTripleOf, convertLimitgraphEdgeToTriple, containsTextFact,
    objectTermOf]

theorem processDoc_ct_mem (ann : String)
    (acc : GenState × List String × Nat) (did txt : String)
    (hne : txt ≠ "") :
    containsTextFact did txt ∈
      ((processDoc ann acc (⟨some did, txt⟩ : Doc)).1).graph := by
  simp only [processDoc]
  rw [if_neg hne]
  have he : extractSimpleTriples txt did (detectLanguage txt) =
      patternTriplesFor txt did (detectLanguage txt) ++
        [⟨"document_" ++ did, "contains_text", txt, 1, did⟩] := rfl
  rw [he, List.foldl_append, List.foldl_cons, List.foldl_nil, convertStep_eq]
  exact ct_main_eq _ _ _ _ ▸ mainTriple_mem_addTripleToGraph _ _
    (convertEdge_rlhf _ _ _ _ _ _ _ _)

theorem graph_mono_foldl_processDoc (ann : String) (corpus : List Doc)
    (acc : GenState × List String × Nat) (a : Triple)
    (h : a ∈ acc.1.graph) :
    a ∈ ((corpus.foldl (processDoc ann) acc).1).graph := by
  induction corpus generalizing acc with
  | nil => exact h
  | cons d ds ih =>
    rw [List.foldl_cons]
    exact ih _ (graph_mono_processDoc _ _ _ _ h)

theorem nodup_foldl_processDoc (ann : String) (corpus : List Doc)
    (acc : GenState × List String × Nat) (h : acc.1.graph.Nodup) :
    ((corpus.foldl (processDoc ann) acc).1).graph.Nodup := by
  induction corpus generalizing acc with
  | nil => exact h
  | cons d ds ih =>
    rw [List.foldl_cons]
    exact ih _ (nodup_processDoc _ _ _ h)

theorem inv_foldl_processDoc (ann : String) (corpus : List Doc)
    (acc : GenState × List String × Nat) (hg : GraphLangOK acc.1.graph)
    (hl : ∀ l ∈ acc.2.1, l ∈ classifierCodes) :
    GraphLangOK ((corpus.foldl (processDoc ann) acc).1).graph ∧
      ∀ l ∈ (corpus.foldl (processDoc ann) acc).2.1, l ∈ classifierCodes := by
  induction corpus generalizing acc with
  | nil => exact ⟨hg, hl⟩
  | cons d ds ih =>
    rw [List.foldl_cons]
    have h := inv_processDoc ann acc d hg hl
    exact ih _ h.1 h.2

theorem convert_graph_eq (corpus : List Doc) (ann : String) (st0 : GenState) :
    (convertLimitgraphCorpus corpus ann st0).graph =
      ((corpus.foldl (processDoc ann) (st0, [], 0)).1).graph := rfl

theorem convert_langs_eq (corpus : List Doc) (ann : String) (st0 : GenState) :
    (convertLimitgraphCorpus corpus ann st0).languages_detected =
      (corpus.foldl (processDoc ann) (st0, [], 0)).2.1 := rfl

/-! ## Claims C3 and C10 -/

theorem patternTriples_pred (text docId lang : String) :
    ∀ c ∈ patternTriplesFor text docId lang,
      c.predicate = "likes" ∨ c.predicate = "allergic_to" := by
  intro c hc
  unfold patternTriplesFor at hc
  split_ifs at hc
  · rcases List.mem_append.mp hc with h | h
    · rcases List.mem_map.mp h with ⟨g, -, rfl⟩
      left; rfl
    · rcases List.mem_map.mp h with ⟨g, -, rfl⟩
      right; rfl
  · rcases List.mem_map.mp hc with ⟨g, -, rfl⟩
    left; rfl
  · cases hc

theorem extract_ct_count (text docId lang : String) :
    (extractSimpleTriples text docId lang).countP
      (fun c => decide (c.predicate = "contains_text")) = 1 := by
  unfold extractSimpleTriples
  rw [List.countP_append]
  have h0 : (patternTriplesFor text docId lang).countP
      (fun c => decide (c.predicate = "contains_text")) = 0 := by
    rw [List.countP_eq_zero]
    intro c hc
    rcases patternTriples_pred _ _ _ c hc with h | h <;> simp [h]
  rw [h0]
  rfl

/-- C3 counterexample: a corpus whose only document has empty text yields an
empty graph and zero statements — the empty-text document is skipped by the
`continue` at the top of the loop, so no `contains_text` fact is produced
for it, contradicting the claim's "including documents whose text is
empty". -/
theorem convert_corpus_empty_text_counterexample :
    (convertLimitgraphCorpus [⟨some "d1", ""⟩] "corpus_processor"
      initGenState).graph = [] ∧
    (convertLimitgraphCorpus [⟨some "d1", ""⟩] "corpus_processor"
      initGenState).triples_count = 0 := by
  constructor <;> rfl

/-- C3 as amended: for every document *with non-empty text* (and its
caller-assigned id), the extractor produces exactly one `contains_text`
candidate fact; that candidate links the document to its full raw text with
confidence 1.0; and the corresponding main fact appears exactly once in the
graph written by `convert_limitgraph_corpus` from a fresh generator.
Documents with empty text are skipped entirely and yield no fact. -/
theorem convert_corpus_contains_text (corpus : List Doc) (ann : String)
    (doc : Doc) (did : String) (hdoc : doc ∈ corpus)
    (hid : doc.id = some did) (hne : doc.text ≠ "") :
    (extractSimpleTriples doc.text did (detectLanguage doc.text)).countP
        (fun c => decide (c.predicate = "contains_text")) = 1 ∧
    (⟨"document_" ++ did, "contains_text", doc.text, 1, did⟩ :
        CandidateTriple) ∈
      extractSimpleTriples doc.text did (detectLanguage doc.text) ∧
    (convertLimitgraphCorpus corpus ann initGenState).graph.count
      (containsTextFact did doc.text) = 1 := by
  refine ⟨extract_ct_count _ _ _, ?_, ?_⟩
  · unfold extractSimpleTriples
    exact List.mem_append_right _ (List.mem_singleton.mpr rfl)
  · have hnd : (convertLimitgraphCorpus corpus ann initGenState).graph.Nodup := by
      rw [convert_graph_eq]
      exact nodup_foldl_processDoc _ _ _ List.nodup_nil
    have hmem : containsTextFact did doc.text ∈
        (convertLimitgraphCorpus corpus ann initGenState).graph := by
      rcases List.append_of_mem hdoc with ⟨s, t, rfl⟩
      rw [convert_graph_eq, List.foldl_append, List.foldl_cons]
      apply graph_mono_foldl_processDoc
      obtain ⟨oid, txt⟩ := doc
      have hid' : oid = some did := hid
      subst hid'
      exact processDoc_ct_mem _ _ _ _ hne
    exact List.count_eq_one_of_mem hnd hmem

/-- Witness for the amended C3 on a one-document corpus. -/
theorem convert_corpus_contains_text_witness :
    (extractSimpleTriples "hola" "d1" (detectLanguage "hola")).countP
        (fun c => decide (c.predicate = "contains_text")) = 1 ∧
    (⟨"document_" ++ "d1", "contains_text", "hola", 1, "d1"⟩ :
        CandidateTriple) ∈
      extractSimpleTriples "hola" "d1" (detectLanguage "hola") ∧
    (convertLimitgraphCorpus [⟨some "d1", "hola"⟩] "demo"
      initGenState).graph.count (containsTextFact "d1" "hola") = 1 :=
  convert_corpus_contains_text [⟨some "d1", "hola"⟩] "demo"
    ⟨some "d1", "hola"⟩ "d1" (List.mem_singleton.mpr rfl) rfl (by decide)

/-- C10: for every corpus and annotator, starting from a fresh generator,
every code in the returned `languages_detected` list and every
`sourceLanguage` value recorded on a written statement is one of the four
classifier lexicon codes es, ar, id, en — the store's wider
supported-language table (zh, hi, …) can never appear. -/
theorem convert_corpus_language_codes (corpus : List Doc) (ann : String) :
    (∀ l ∈ (convertLimitgraphCorpus corpus ann initGenState).languages_detected,
      l ∈ classifierCodes) ∧
    (∀ s lang, sourceLanguageTriple s lang ∈
        (convertLimitgraphCorpus corpus ann initGenState).graph →
      lang ∈ classifierCodes) := by
  have h := inv_foldl_processDoc ann corpus (initGenState, [], 0)
    (fun s lang hmem => absurd hmem (List.not_mem_nil _))
    (fun l hl => absurd hl (List.not_mem_nil _))
  constructor
  · intro l hl
    rw [convert_langs_eq] at hl
    exact h.2 l hl
  · intro s lang hmem
    rw [convert_graph_eq] at hmem
    exact h.1 s lang hmem

/-- Witness for C10 on a one-document corpus classified `"en"`. -/
theorem convert_corpus_language_codes_witness :
    ("en" : String) ∈ classifierCodes :=
  (convert_corpus_language_codes [⟨some "d1", "hola"⟩] "demo").1 "en"
    (by decide)

end LimitGraph
